import Mathlib

deriving instance DecidableEq for Except

/-!
Verification of the escolas_parana scraper (src/escolas_parana.py) against its
natural-language specification.  The Python program is shallowly embedded:
pure string processing becomes Lean functions on `List Char`, the stateful
HTTP navigation becomes explicit environment passing (an environment maps each
request of the fixed sequence to the response content the server would send),
and Python exceptions become `Except PyError`.
-/

namespace EscolasParana

/-! ## Python error model

Python exceptions raised by the script: `TypeError` (subscripting the result of
a failed `soup.find`), `IndexError` (indexing `find_all` results), `ValueError`
(pandas length mismatch, `read_html` with no table, `concat` of an empty list)
and `KeyError` (missing dict key). -/

inductive PyError where
  | typeError : PyError
  | indexError : PyError
  | valueError : PyError
  | keyError : String → PyError
deriving DecidableEq

/-! ## Identifier normalizer (`normalize_string`, lines 17-33)

The Python code is
`s.lower()`, then `s.replace(chr(0xE1), chr(0x61)).replace(chr(0xE3), chr(0x61)).replace(" ", "")`,
then `re.sub` removing every character that is neither ASCII alphanumeric nor
regex whitespace.  `str.lower` is modelled character-wise by a lookup table
covering ASCII and the Latin-1 Supplement letters, which is exactly the
character-wise behaviour of CPython on those ranges. -/

def lowerPairs : List (Char × Char) :=
  [('A', 'a'), ('B', 'b'), ('C', 'c'), ('D', 'd'), ('E', 'e'), ('F', 'f'),
   ('G', 'g'), ('H', 'h'), ('I', 'i'), ('J', 'j'), ('K', 'k'), ('L', 'l'),
   ('M', 'm'), ('N', 'n'), ('O', 'o'), ('P', 'p'), ('Q', 'q'), ('R', 'r'),
   ('S', 's'), ('T', 't'), ('U', 'u'), ('V', 'v'), ('W', 'w'), ('X', 'x'),
   ('Y', 'y'), ('Z', 'z'),
   ('À', 'à'), ('Á', 'á'), ('Â', 'â'), ('Ã', 'ã'), ('Ä', 'ä'), ('Å', 'å'),
   ('Æ', 'æ'), ('Ç', 'ç'), ('È', 'è'), ('É', 'é'), ('Ê', 'ê'), ('Ë', 'ë'),
   ('Ì', 'ì'), ('Í', 'í'), ('Î', 'î'), ('Ï', 'ï'), ('Ð', 'ð'), ('Ñ', 'ñ'),
   ('Ò', 'ò'), ('Ó', 'ó'), ('Ô', 'ô'), ('Õ', 'õ'), ('Ö', 'ö'), ('Ø', 'ø'),
   ('Ù', 'ù'), ('Ú', 'ú'), ('Û', 'û'), ('Ü', 'ü'), ('Ý', 'ý'), ('Þ', 'þ')]

def pyLowerChar (c : Char) : Char :=
  (lowerPairs.lookup c).getD c

/-- The two explicit `str.replace` calls of `normalize_string`: fold the two
characters `á` and `ã` to `a`; every other character is kept. -/
def foldAccent (c : Char) : Char :=
  if c = 'á' then 'a' else if c = 'ã' then 'a' else c

def isAsciiAlnum (c : Char) : Bool :=
  (decide ('a' ≤ c) && decide (c ≤ 'z')) ||
  (decide ('A' ≤ c) && decide (c ≤ 'Z')) ||
  (decide ('0' ≤ c) && decide (c ≤ '9'))

/-- Characters matched by the regex class backslash-s of the Python `re`
module in Unicode mode (the whitespace class). -/
def pyIsSpace (c : Char) : Bool :=
  let n := c.toNat
  decide (0x9 ≤ n ∧ n ≤ 0xD) || decide (n = 0x20) ||
  decide (0x1C ≤ n ∧ n ≤ 0x1F) || decide (n = 0x85) || decide (n = 0xA0) ||
  decide (n = 0x1680) || decide (0x2000 ≤ n ∧ n ≤ 0x200A) ||
  decide (n = 0x2028) || decide (n = 0x2029) || decide (n = 0x202F) ||
  decide (n = 0x205F) || decide (n = 0x3000)

/-- Character class kept by the final `re.sub` of `normalize_string` (the
pattern removes every character that is neither ASCII alphanumeric nor regex
whitespace). -/
def keepChar (c : Char) : Bool :=
  isAsciiAlnum c || pyIsSpace c

def normalizeChars (l : List Char) : List Char :=
  (((l.map pyLowerChar).map foldAccent).filter (fun c => c != ' ')).filter keepChar

/-- Model of `normalize_string` (lines 17-33 of the source). -/
def normalize_string (s : String) : String :=
  String.mk (normalizeChars s.data)

/-- Normalizer following the words of the specification, for comparison with
the source function: lowercase, fold every accented vowel to its unaccented
form, strip all whitespace, drop every remaining character outside the ASCII
alphanumeric range. -/
def foldAccentSpec (c : Char) : Char :=
  if c = 'á' ∨ c = 'à' ∨ c = 'â' ∨ c = 'ä' ∨ c = 'ã' ∨ c = 'å' then 'a'
  else if c = 'é' ∨ c = 'è' ∨ c = 'ê' ∨ c = 'ë' then 'e'
  else if c = 'í' ∨ c = 'ì' ∨ c = 'î' ∨ c = 'ï' then 'i'
  else if c = 'ó' ∨ c = 'ò' ∨ c = 'ô' ∨ c = 'ö' ∨ c = 'õ' then 'o'
  else if c = 'ú' ∨ c = 'ù' ∨ c = 'û' ∨ c = 'ü' then 'u'
  else c

/-- Modelled from the spec (section 4.1): the canonical-key contract as the
specification words it, used only to exhibit where `normalize_string`
deviates from it. -/
def normalize_spec (s : String) : String :=
  String.mk ((((s.data.map pyLowerChar).map foldAccentSpec).filter
    (fun c => !pyIsSpace c)).filter isAsciiAlnum)

/-! ### Normalizer lemmas -/

theorem lookup_mem : ∀ (ps : List (Char × Char)) (k v : Char),
    ps.lookup k = some v → (k, v) ∈ ps := by
  intro ps
  induction ps with
  | nil => intro k v h; simp [List.lookup] at h
  | cons p rest ih =>
    intro k v h
    obtain ⟨a, b⟩ := p
    rw [List.lookup] at h
    cases hbeq : (k == a) with
    | true =>
      rw [hbeq] at h
      simp only [Option.some.injEq] at h
      have hk : k = a := eq_of_beq hbeq
      subst hk; subst h
      exact List.mem_cons_self _ _
    | false =>
      rw [hbeq] at h
      exact List.mem_cons_of_mem _ (ih k v h)

/-- Every character produced by the lowercase table is itself a fixed point of
the table: checked on the concrete 56-entry table. -/
theorem lowerPairs_fixed : ∀ p ∈ lowerPairs, lowerPairs.lookup p.2 = none := by decide

theorem pyLowerChar_idem (c : Char) : pyLowerChar (pyLowerChar c) = pyLowerChar c := by
  unfold pyLowerChar
  cases h : lowerPairs.lookup c with
  | none => simp [h]
  | some v =>
    have hv : (c, v) ∈ lowerPairs := lookup_mem _ _ _ h
    have hfix : lowerPairs.lookup v = none := lowerPairs_fixed (c, v) hv
    simp [h, hfix]

theorem pyLowerChar_a : pyLowerChar 'a' = 'a' := by decide

theorem foldAccent_a : foldAccent 'a' = 'a' := by decide

theorem normChar_fixed (x : Char) :
    pyLowerChar (foldAccent (pyLowerChar x)) = foldAccent (pyLowerChar x) ∧
    foldAccent (foldAccent (pyLowerChar x)) = foldAccent (pyLowerChar x) := by
  by_cases h1 : pyLowerChar x = 'á'
  · rw [h1]; constructor <;> decide
  · by_cases h2 : pyLowerChar x = 'ã'
    · rw [h2]; constructor <;> decide
    · have hfold : foldAccent (pyLowerChar x) = pyLowerChar x := by
        unfold foldAccent
        rw [if_neg h1, if_neg h2]
      rw [hfold]
      exact ⟨pyLowerChar_idem x, hfold⟩

theorem map_id_of_mem {α : Type} {f : α → α} :
    ∀ {l : List α}, (∀ a ∈ l, f a = a) → l.map f = l := by
  intro l h
  induction l with
  | nil => rfl
  | cons a t ih =>
    simp only [List.map_cons, h a (List.mem_cons_self a t)]
    rw [ih fun b hb => h b (List.mem_cons_of_mem a hb)]

theorem mem_normalizeChars {l : List Char} {c : Char} (h : c ∈ normalizeChars l) :
    (∃ x, x ∈ l ∧ c = foldAccent (pyLowerChar x)) ∧ (c != ' ') = true ∧
      keepChar c = true := by
  unfold normalizeChars at h
  have h1 := List.mem_filter.mp h
  have h2 := List.mem_filter.mp h1.1
  obtain ⟨y, hy, hyc⟩ := List.mem_map.mp h2.1
  obtain ⟨x, hx, hxy⟩ := List.mem_map.mp hy
  exact ⟨⟨x, hx, by rw [← hyc, ← hxy]⟩, h2.2, h1.2⟩

theorem normalizeChars_idem (l : List Char) :
    normalizeChars (normalizeChars l) = normalizeChars l := by
  have hfix : ∀ c ∈ normalizeChars l,
      pyLowerChar c = c ∧ foldAccent c = c ∧ (c != ' ') = true ∧ keepChar c = true := by
    intro c hc
    obtain ⟨⟨x, _, hcx⟩, hsp, hkeep⟩ := mem_normalizeChars hc
    subst hcx
    exact ⟨(normChar_fixed x).1, (normChar_fixed x).2, hsp, hkeep⟩
  show ((((normalizeChars l).map pyLowerChar).map foldAccent).filter
      (fun c => c != ' ')).filter keepChar = normalizeChars l
  rw [map_id_of_mem (fun c hc => (hfix c hc).1),
      map_id_of_mem (fun c hc => (hfix c hc).2.1),
      List.filter_eq_self.mpr (fun c hc => (hfix c hc).2.2.1),
      List.filter_eq_self.mpr (fun c hc => (hfix c hc).2.2.2)]

/-! ### Claims C4 and C9 -/

/-- Claim C4, counterexample.  The claim states that the normalizer folds every
accented vowel to its unaccented form.  The source only folds the two
characters named in its replace calls; at the input made of the single letter
e-acute the code yields the empty string (the letter is dropped by the regex),
while the key demanded by the claim wording is the one-letter string e. -/
theorem c4_counterexample :
    normalize_string "é" = "" ∧ normalize_spec "é" = "e" ∧
      normalize_string "é" ≠ normalize_spec "é" :=
  ⟨by decide, by decide, by decide⟩

/-- Claim C4, amended.  The normalizer lowercases, folds only the accented
letters a-acute and a-tilde (and their uppercase forms, via lowercasing) to
the letter a, strips only the plain space character, and keeps exactly the
characters that are ASCII alphanumeric or whitespace: every character of a
produced key satisfies `keepChar` and differs from the space character; other
accented letters are dropped rather than folded; non-space whitespace is kept;
and the concrete example normalize of the string Sao Paulo with a-tilde still
equals saopaulo. -/
theorem c4_theorem :
    (∀ s : String, ∀ c ∈ (normalize_string s).data, keepChar c = true ∧ c ≠ ' ') ∧
    normalize_string "São Paulo" = "saopaulo" ∧
    normalize_string "CURITIBA" = "curitiba" ∧
    normalize_string "á" = "a" ∧
    normalize_string "ã" = "a" ∧
    normalize_string "é" = "" ∧
    normalize_string "ç" = "" ∧
    normalize_string "a\tb" = "a\tb" := by
  refine ⟨?_, by decide, by decide, by decide, by decide, by decide, by decide, by decide⟩
  intro s c hc
  have h := mem_normalizeChars (l := s.data) hc
  exact ⟨h.2.2, by simpa using h.2.1⟩

/-- Claim C4, witness for the amended theorem at a concrete input. -/
theorem c4_witness : keepChar 'a' = true ∧ 'a' ≠ ' ' :=
  c4_theorem.1 "ab" 'a' (by decide)

/-- Claim C9, counterexample.  The claim states that two differently-accented
spellings of the same name normalize to equal keys.  The source folds only
the two letters named in its replace calls and the regex deletes every other
accented letter, so the spelling of Jose with an accented e normalizes to the
three-letter key jos while the unaccented spelling normalizes to jose: the two
keys differ. -/
theorem c9_counterexample :
    normalize_string "José" = "jos" ∧ normalize_string "Jose" = "jose" ∧
      normalize_string "José" ≠ normalize_string "Jose" :=
  ⟨by decide, by decide, by decide⟩

/-- Claim C9, amended.  The normalizer is idempotent on every string, and
differently-cased spellings of the same name normalize to equal keys, as do
spellings differing only in the two folded letters a-acute and a-tilde; but
spellings differing in any other accented letter need not agree, since those
letters are dropped rather than folded. -/
theorem c9_theorem :
    (∀ s : String, normalize_string (normalize_string s) = normalize_string s) ∧
    normalize_string "CURITIBA" = normalize_string "curitiba" ∧
    normalize_string "SÃO PAULO" = normalize_string "São Paulo" ∧
    normalize_string "Água" = normalize_string "Agua" ∧
    normalize_string "José" ≠ normalize_string "Jose" := by
  refine ⟨?_, by decide, by decide, by decide, by decide⟩
  intro s
  show String.mk (normalizeChars (normalizeChars s.data)) = String.mk (normalizeChars s.data)
  rw [normalizeChars_idem]

/-! ## Dataframe cells and the summary / detail tables

A pandas cell is either missing (NaN, also used for None), a string, or a
number.  The summary grid parsed by `pd.read_html` at line 293 is renamed at
line 357 to a fixed 7-column schema, modelled by `Big7`; the per-identifier
detail table keeps its Nome column plus the remaining personal fields,
modelled by `nome` and one representative column `dados`. -/

inductive Cellv where
  | na : Cellv
  | str : String → Cellv
  | num : Int → Cellv
deriving DecidableEq

/-- The seven summary columns of the supply and demand grid, in the renamed
order of line 357: Disciplina-Funcao, Turno, Demanda, Suprimento, Vagas,
Excessos, Detalhes. -/
structure Big7 where
  disciplina : Cellv
  turno : Cellv
  demanda : Cellv
  suprimento : Cellv
  vagas : Cellv
  excessos : Cellv
  detalhes : Cellv
deriving DecidableEq

/-- One td cell of the summary grid as the id-extraction loop of lines
285-291 sees it: whether the cell markup contains the substring marking a
nested div element, and the value of the first id attribute occurring in the
markup, when one occurs. -/
structure Cell where
  hasDiv : Bool
  idAttr : Option String
deriving DecidableEq

/-- One data row (a tr holding td cells) of the summary grid, together with
the seven values `pd.read_html` parses out of it. -/
structure DataRow where
  cells : List Cell
  big7 : Big7
deriving DecidableEq

/-- The second role-grid table of the supply and demand page. -/
structure HtmlTable where
  dataRows : List DataRow
deriving DecidableEq

/-- One row of a parsed detail table before the script adds its own columns:
the Nome column and the remaining personal and contract fields. -/
structure DetailParsed where
  nome : Cellv
  dados : Cellv
deriving DecidableEq

/-- One row of `df_detail` after the script has added the ids, municipio and
escola columns (lines 347, 354, 355). -/
structure DetailRow where
  ids : Option String
  nome : Cellv
  dados : Cellv
  municipio : Cellv
  escola : Cellv
deriving DecidableEq

/-- One row of `df_big` after line 294 added the ids column. -/
structure BigRow where
  big7 : Big7
  ids : Option String
deriving DecidableEq

/-- One row of `df_merged` (line 360): the summary columns, the left-join key,
and the detail-side columns. -/
structure MergedRow where
  big7 : Big7
  ids : Cellv
  nome : Cellv
  dados : Cellv
  municipio : Cellv
  escola : Cellv
deriving DecidableEq

/-! ## Table extractor (lines 284-294) -/

/-- Contribution of one td cell to the ids list, from the loop of lines
285-291: a cell containing a nested div contributes nothing at all; otherwise
the first id attribute is appended when present, and None is appended when
not. -/
def extractIdsCell (c : Cell) : List (Option String) :=
  if c.hasDiv then [] else [c.idAttr]

/-- The ids list built by the double loop over tr rows and td cells
(lines 284-291). -/
def extractIds : List DataRow → List (Option String)
  | [] => []
  | r :: rs => r.cells.flatMap extractIdsCell ++ extractIds rs

/-- The order-preserving distinct-value sequence of a pandas column:
`Series.unique` keeps the first occurrence of every value, missing values
included.  Used for the loop over `df_big` ids at line 299. -/
def pdUniqueAux {α : Type} [DecidableEq α] (seen : List α) : List α → List α
  | [] => []
  | x :: xs =>
    if x ∈ seen then pdUniqueAux seen xs else x :: pdUniqueAux (x :: seen) xs

def pdUnique {α : Type} [DecidableEq α] (l : List α) : List α :=
  pdUniqueAux [] l

/-! ## Left join and zero fill (lines 360-361) -/

/-- The detail rows matching one summary row under the join key, with pandas
equality on keys: missing keys match missing keys. -/
def matchesOf (details : List DetailRow) (b : BigRow) : List DetailRow :=
  details.filter (fun d => decide (d.ids = b.ids))

/-- The left-join key column kept in the merged frame. -/
def idCell : Option String → Cellv
  | none => Cellv.na
  | some s => Cellv.str s

def matchedRow (b : BigRow) (d : DetailRow) : MergedRow :=
  { big7 := b.big7, ids := idCell b.ids, nome := d.nome, dados := d.dados,
    municipio := d.municipio, escola := d.escola }

def unmatchedRow (b : BigRow) : MergedRow :=
  { big7 := b.big7, ids := idCell b.ids, nome := Cellv.na, dados := Cellv.na,
    municipio := Cellv.na, escola := Cellv.na }

/-- Model of `df_big.merge(df_detail, on=..., how=...)` with a left join
(line 360): every summary row is kept; a row with matches produces one output
row per matching detail row; a row without matches produces one output row
whose detail-side columns are missing. -/
def mergeLeft : List BigRow → List DetailRow → List MergedRow
  | [], _ => []
  | b :: bs, details =>
    (if (matchesOf details b).isEmpty then [unmatchedRow b]
     else (matchesOf details b).map (matchedRow b)) ++ mergeLeft bs details

/-- Model of `fillna(0)` on one cell: every missing value, in every column,
becomes the number 0 (line 361). -/
def fillCell : Cellv → Cellv
  | Cellv.na => Cellv.num 0
  | c => c

def fillBig7 (b : Big7) : Big7 :=
  { disciplina := fillCell b.disciplina, turno := fillCell b.turno,
    demanda := fillCell b.demanda, suprimento := fillCell b.suprimento,
    vagas := fillCell b.vagas, excessos := fillCell b.excessos,
    detalhes := fillCell b.detalhes }

def fillRow (m : MergedRow) : MergedRow :=
  { big7 := fillBig7 m.big7, ids := fillCell m.ids, nome := fillCell m.nome,
    dados := fillCell m.dados, municipio := fillCell m.municipio,
    escola := fillCell m.escola }

def fillna0 (l : List MergedRow) : List MergedRow :=
  l.map fillRow

/-! ## Per-school navigation (`extract_school_data`, lines 192-363)

The function performs a fixed sequence of HTTP round trips.  The environment
`SchoolEnv` supplies, for each response of that sequence, the page content the
code reads out of it: the view-state input value of the three full-page GET
responses (absent when the expected input element is missing, in which case
subscripting the find result raises TypeError), the role-grid tables of the
final page, and for each detail request the parsed rows of the detail table in
its partial response (absent when `pd.read_html` finds no table and raises
ValueError).  The two POST navigation submissions carry form data but their
responses are never parsed, so they need no entry in the environment. -/

structure SchoolEnv where
  vs1 : Option String
  vs2 : Option String
  vs3 : Option String
  gridTables : List HtmlTable
  detailResp : Option String → Option (List DetailParsed)

/-- Request and response events of one school extraction, recording for every
request the view-state token its form data carries (the GET requests carry
none) and for every parsed response the token captured from it.  Detail
requests also record the identifier named as source and trigger. -/
inductive Ev where
  | navReq : Option String → Ev
  | cap : String → Ev
  | detailReq : Option String → String → Ev
deriving DecidableEq

/-- The full event sequence of one successful school extraction: GET school
page, capture token, POST to the professionals page carrying it, GET
professionals page, capture token, POST to the supply and demand page carrying
it, GET supply and demand page, capture token, then one detail POST per
distinct identifier carrying that token. -/
def mkTrace (v1 v2 v3 : String) (uids : List (Option String)) : List Ev :=
  [Ev.navReq none, Ev.cap v1, Ev.navReq (some v1),
   Ev.navReq none, Ev.cap v2, Ev.navReq (some v2),
   Ev.navReq none, Ev.cap v3] ++ uids.map (fun i => Ev.detailReq i v3)

/-- The view-state extraction `soup.find(input, ViewState)[value]` of lines
200, 247 and 278: a missing input element makes the subscript raise
TypeError. -/
def getViewstate (r : Option String) : Except PyError String :=
  match r with
  | none => Except.error PyError.typeError
  | some v => Except.ok v

/-- The detail-request loop body of lines 299-349: one partial-update POST per
value of `df_big.ids.unique()`, each parsed by `pd.read_html` (ValueError when
the response holds no table) and tagged with its identifier in a new ids
column. -/
def detailFetch (env : SchoolEnv) (uids : List (Option String)) :
    Except PyError (List (List DetailRow)) :=
  uids.mapM (fun i =>
    match env.detailResp i with
    | none => Except.error PyError.valueError
    | some rows =>
      Except.ok (rows.map (fun p =>
        ({ ids := i, nome := p.nome, dados := p.dados,
           municipio := Cellv.na, escola := Cellv.na } : DetailRow))))

/-- Model of `extract_school_data` (lines 192-363).  Returns the event trace
together with the merged table.  Control flow follows the source: three
view-state captures; indexing the second role-grid table (IndexError when
absent); the ids list must align with the parsed rows (pandas ValueError on a
length mismatch at line 294); one detail request per distinct ids value;
`pd.concat` of the collected detail frames (ValueError when the list is
empty); dropna on Nome; municipio and escola columns added to the detail
frame; left merge on ids; `fillna(0)`. -/
def extract_school_data (env : SchoolEnv) (city school : String) :
    Except PyError (List Ev × List MergedRow) :=
  match env.vs1 with
  | none => Except.error PyError.typeError
  | some v1 =>
    match env.vs2 with
    | none => Except.error PyError.typeError
    | some v2 =>
      match env.vs3 with
      | none => Except.error PyError.typeError
      | some v3 =>
        match env.gridTables.get? 1 with
        | none => Except.error PyError.indexError
        | some table =>
          let ids := extractIds table.dataRows
          if ids.length = table.dataRows.length then
            let df_big := List.zipWith
              (fun r i => ({ big7 := r.big7, ids := i } : BigRow)) table.dataRows ids
            let uids := pdUnique ids
            match detailFetch env uids with
            | Except.error e => Except.error e
            | Except.ok dfs =>
              if uids.isEmpty then Except.error PyError.valueError
              else
                let df_detail := ((dfs.flatten).filter
                  (fun d => decide (d.nome ≠ Cellv.na))).map
                  (fun d => { d with municipio := Cellv.str city,
                                     escola := Cellv.str school })
                Except.ok (mkTrace v1 v2 v3 uids,
                  fillna0 (mergeLeft df_big df_detail))
          else Except.error PyError.valueError

/-! ## Orchestration (`extract_cities_schools`, `extract_city_data`, `main`;
lines 36-53, 97-189, 366-375)

The input spreadsheet is a list of raw (establishment, municipality) pairs.
The per-city environment supplies the options list of the school select in
the partial response to the city POST (absent when the response holds no
select element).  The city code map is the dict built by `initial_request`. -/

structure OptionTag where
  text : String
  value : Option String
deriving DecidableEq

structure CityResp where
  selectTag : Option (List OptionTag)

structure RunEnv where
  city : String → CityResp
  school : String → SchoolEnv

/-- Model of `extract_cities_schools` (lines 36-53): normalize both name
columns and list the distinct normalized municipalities.  A spreadsheet row is
the pair of its establishment and municipality names. -/
def extract_cities_schools (rows : List (String × String)) :
    List (String × String) × List String :=
  let nrows := rows.map (fun r => (normalize_string r.1, normalize_string r.2))
  (nrows, pdUnique (nrows.map (fun r => r.2)))

/-- The distinct normalized school names requested for one city
(line 116). -/
def schoolsOf (dfExcel : List (String × String)) (city : String) : List String :=
  pdUnique ((dfExcel.filter (fun r => decide (r.2 = city))).map (fun r => r.1))

/-- The body of the per-city loop of `extract_city_data` (lines 115-187):
look the city up in the code dict (an absent key raises KeyError, uncaught),
POST the city selection, and when the response holds a select element with
options, run `extract_school_data` for every option whose normalized label is
a requested school, collecting the returned frames.  A response without a
select element, or with an empty option list, is skipped with continue. -/
def processCity (env : RunEnv) (dict : List (String × String))
    (dfExcel : List (String × String)) (city : String) :
    Except PyError (List (List MergedRow)) :=
  match dict.lookup city with
  | none => Except.error (PyError.keyError city)
  | some _code =>
    match (env.city city).selectTag with
    | none => Except.ok []
    | some opts =>
      if opts.length = 0 then Except.ok []
      else
        opts.foldlM (fun acc opt =>
          match opt.value with
          | none => Except.ok acc
          | some code =>
            if normalize_string opt.text ∈ schoolsOf dfExcel city then
              match extract_school_data (env.school code) city opt.text with
              | Except.error e => Except.error e
              | Except.ok r => Except.ok (acc ++ [r.2])
            else Except.ok acc) []

/-- Model of `extract_city_data` (lines 97-189): process the cities in order,
appending every per-school frame; any exception raised inside the loop is
uncaught and propagates. -/
def extract_city_data (env : RunEnv) (dict : List (String × String))
    (dfExcel : List (String × String)) : List String →
    Except PyError (List (List MergedRow))
  | [] => Except.ok []
  | c :: cs =>
    match processCity env dict dfExcel c with
    | Except.error e => Except.error e
    | Except.ok v =>
      match extract_city_data env dict dfExcel cs with
      | Except.error e => Except.error e
      | Except.ok rest => Except.ok (v ++ rest)

/-- Model of `main` (lines 366-375): read and normalize the spreadsheet, run
`extract_city_data` over the distinct cities, then `pd.concat` the collected
frames (ValueError when none were collected) and write the result.  The city
code dict built by `initial_request` is passed in, since its construction from
the initial page is orthogonal to every claim.  The returned row list is the
content of the written export. -/
def main (excel : List (String × String)) (dict : List (String × String))
    (env : RunEnv) : Except PyError (List MergedRow) :=
  let p := extract_cities_schools excel
  match extract_city_data env dict p.1 p.2 with
  | Except.error e => Except.error e
  | Except.ok dfs =>
    if dfs.isEmpty then Except.error PyError.valueError
    else Except.ok dfs.flatten

/-! ## Concrete fixtures used by counterexamples and witnesses -/

def big7ex : Big7 :=
  ⟨Cellv.str "Matematica", Cellv.str "Manha", Cellv.num 1, Cellv.num 1,
   Cellv.num 0, Cellv.num 0, Cellv.str "+"⟩

/-- A one-row summary table whose single cell carries an id attribute. -/
def tableA : HtmlTable := ⟨[⟨[⟨false, some "idA"⟩], big7ex⟩]⟩

/-- An environment on which one school extraction fully succeeds. -/
def okSchoolEnv : SchoolEnv :=
  { vs1 := some "v1", vs2 := some "v2", vs3 := some "v3",
    gridTables := [⟨[]⟩, tableA],
    detailResp := fun i =>
      if i = some "idA" then some [⟨Cellv.str "Maria", Cellv.num 20⟩] else none }

/-- The merged table `extract_school_data okSchoolEnv` produces. -/
def dfOk : List MergedRow :=
  [{ big7 := big7ex, ids := Cellv.str "idA", nome := Cellv.str "Maria",
     dados := Cellv.num 20, municipio := Cellv.str "curitiba",
     escola := Cellv.str "Escola A" }]

/-- An environment whose first school-page response lacks the view-state
input: the extraction raises TypeError. -/
def badSchoolEnv : SchoolEnv :=
  { okSchoolEnv with vs1 := none }

/-- A two-row summary table where the second row's cell has no id attribute:
its ids entry is None. -/
def tableB : HtmlTable :=
  ⟨[⟨[⟨false, some "idA"⟩], big7ex⟩, ⟨[⟨false, none⟩], big7ex⟩]⟩

def envC3fix : SchoolEnv :=
  { vs1 := some "v1", vs2 := some "v2", vs3 := some "v3",
    gridTables := [⟨[]⟩, tableB],
    detailResp := fun i =>
      if i = some "idA" then some [⟨Cellv.str "Maria", Cellv.num 20⟩]
      else if i = none then some [] else none }

/-- A two-row summary table with ids on both rows. -/
def tableC : HtmlTable :=
  ⟨[⟨[⟨false, some "idA"⟩], big7ex⟩, ⟨[⟨false, some "idB"⟩], big7ex⟩]⟩

/-- Environment where the second identifier's detail response parses to a
zero-row table, so the second summary row matches nothing in the join. -/
def envC8fix : SchoolEnv :=
  { vs1 := some "v1", vs2 := some "v2", vs3 := some "v3",
    gridTables := [⟨[]⟩, tableC],
    detailResp := fun i =>
      if i = some "idA" then some [⟨Cellv.str "Maria", Cellv.num 20⟩]
      else if i = some "idB" then some [] else none }

def excelC1 : List (String × String) :=
  [("Escola A", "Curitiba"), ("Escola B", "Curitiba")]

def dictC1 : List (String × String) := [("curitiba", "100")]

/-- Run environment for one city with two schools: the first school extracts
fine, the second hits a response without the view-state input. -/
def envC1fix : RunEnv :=
  { city := fun _ => ⟨some [⟨"Escola A", some "1"⟩, ⟨"Escola B", some "2"⟩]⟩,
    school := fun code => if code = "1" then okSchoolEnv else badSchoolEnv }

/-- Spreadsheet requesting a municipality (Foz) that the city code map does
not contain, before one it does contain. -/
def excelC2 : List (String × String) :=
  [("Escola X", "Foz"), ("Escola A", "Curitiba")]

/-- Run environment whose city response carries no select element. -/
def envSkip : RunEnv :=
  { city := fun _ => ⟨none⟩, school := fun _ => badSchoolEnv }

/-! ## Lemmas on `pdUnique` -/

theorem mem_pdUniqueAux {α : Type} [DecidableEq α] :
    ∀ (l seen : List α) (x : α), x ∈ pdUniqueAux seen l ↔ x ∈ l ∧ x ∉ seen := by
  intro l
  induction l with
  | nil => intro seen x; simp [pdUniqueAux]
  | cons a t ih =>
    intro seen x
    by_cases ha : a ∈ seen
    · rw [pdUniqueAux, if_pos ha, ih]
      constructor
      · rintro ⟨hx, hs⟩; exact ⟨List.mem_cons_of_mem a hx, hs⟩
      · rintro ⟨hx, hs⟩
        rcases List.mem_cons.mp hx with hx | hx
        · subst hx; exact absurd ha hs
        · exact ⟨hx, hs⟩
    · rw [pdUniqueAux, if_neg ha]
      constructor
      · intro hx
        rcases List.mem_cons.mp hx with hx | hx
        · subst hx; exact ⟨List.mem_cons_self x t, ha⟩
        · have := (ih (a :: seen) x).mp hx
          exact ⟨List.mem_cons_of_mem a this.1,
            fun hs => this.2 (List.mem_cons_of_mem a hs)⟩
      · rintro ⟨hx, hs⟩
        rcases List.mem_cons.mp hx with hx | hx
        · subst hx; exact List.mem_cons_self x _
        · by_cases hxa : x = a
          · subst hxa; exact List.mem_cons_self x _
          · exact List.mem_cons_of_mem a ((ih (a :: seen) x).mpr
              ⟨hx, fun hmem => (List.mem_cons.mp hmem).elim hxa hs⟩)

theorem nodup_pdUniqueAux {α : Type} [DecidableEq α] :
    ∀ (l seen : List α), (pdUniqueAux seen l).Nodup := by
  intro l
  induction l with
  | nil => intro seen; simp [pdUniqueAux]
  | cons a t ih =>
    intro seen
    by_cases ha : a ∈ seen
    · rw [pdUniqueAux, if_pos ha]; exact ih seen
    · rw [pdUniqueAux, if_neg ha]
      refine List.nodup_cons.mpr ⟨?_, ih (a :: seen)⟩
      intro hmem
      exact ((mem_pdUniqueAux t (a :: seen) a).mp hmem).2 (List.mem_cons_self a seen)

theorem mem_pdUnique {α : Type} [DecidableEq α] (l : List α) (x : α) :
    x ∈ pdUnique l ↔ x ∈ l := by
  rw [pdUnique, mem_pdUniqueAux]
  simp

theorem nodup_pdUnique {α : Type} [DecidableEq α] (l : List α) :
    (pdUnique l).Nodup :=
  nodup_pdUniqueAux l []

/-! ## Token threading -/

/-- The token-threading invariant over an event list: `cur` is the most
recently captured view-state token; a capture updates it; every request that
carries a token must carry exactly `cur`. -/
def threadedFrom : Option String → List Ev → Prop
  | _, [] => True
  | _, (Ev.cap t) :: rest => threadedFrom (some t) rest
  | cur, (Ev.navReq none) :: rest => threadedFrom cur rest
  | cur, (Ev.navReq (some t)) :: rest => cur = some t ∧ threadedFrom cur rest
  | cur, (Ev.detailReq _ t) :: rest => cur = some t ∧ threadedFrom cur rest

theorem threaded_detail (v : String) :
    ∀ uids : List (Option String),
      threadedFrom (some v) (uids.map (fun i => Ev.detailReq i v)) := by
  intro uids
  induction uids with
  | nil => exact trivial
  | cons i t ih => exact ⟨rfl, ih⟩

theorem threaded_mkTrace (v1 v2 v3 : String) (uids : List (Option String)) :
    threadedFrom none (mkTrace v1 v2 v3 uids) :=
  ⟨rfl, rfl, threaded_detail v3 uids⟩

/-- Shape of the event trace on any successful school extraction: it is the
fixed navigation prefix followed by one detail request per distinct ids value
of the second grid table. -/
theorem extract_school_data_ok_shape {env : SchoolEnv} {city school : String}
    {tr : List Ev} {df : List MergedRow}
    (h : extract_school_data env city school = Except.ok (tr, df)) :
    ∃ v1 v2 v3 table,
      env.gridTables.get? 1 = some table ∧
      tr = mkTrace v1 v2 v3 (pdUnique (extractIds table.dataRows)) := by
  unfold extract_school_data at h
  rcases h1 : env.vs1 with _ | v1 <;> rw [h1] at h
  · exact Except.noConfusion h
  rcases h2 : env.vs2 with _ | v2 <;> rw [h2] at h
  · exact Except.noConfusion h
  rcases h3 : env.vs3 with _ | v3 <;> rw [h3] at h
  · exact Except.noConfusion h
  rcases h4 : env.gridTables.get? 1 with _ | table <;> rw [h4] at h
  · exact Except.noConfusion h
  simp only [] at h
  by_cases h5 : (extractIds table.dataRows).length = table.dataRows.length
  · rw [if_pos h5] at h
    rcases h6 : detailFetch env (pdUnique (extractIds table.dataRows)) with e | dfs <;>
      rw [h6] at h
    · exact Except.noConfusion h
    dsimp only at h
    by_cases h7 : (pdUnique (extractIds table.dataRows)).isEmpty = true
    · rw [if_pos h7] at h; exact Except.noConfusion h
    · rw [if_neg h7] at h
      have := Except.ok.inj h
      exact ⟨v1, v2, v3, table, rfl, ((Prod.mk.injEq _ _ _ _).mp this).1.symm⟩
  · rw [if_neg h5] at h; exact Except.noConfusion h

/-! ### Claim C5 -/

/-- Claim C5: during a single school's navigation sequence, every request that
carries a view-state token carries exactly the token most recently captured
from a server response — on any environment on which the extraction succeeds,
the event trace satisfies the threading invariant from the start (no token yet
observed). -/
theorem c5_theorem (env : SchoolEnv) (city school : String) (tr : List Ev)
    (df : List MergedRow)
    (h : extract_school_data env city school = Except.ok (tr, df)) :
    threadedFrom none tr := by
  obtain ⟨v1, v2, v3, table, _, htr⟩ := extract_school_data_ok_shape h
  rw [htr]
  exact threaded_mkTrace v1 v2 v3 (pdUnique (extractIds table.dataRows))

/-- Claim C5, witness: the threading invariant holds on the concrete trace of
the fixture environment. -/
theorem c5_witness : threadedFrom none (mkTrace "v1" "v2" "v3" [some "idA"]) :=
  c5_theorem okSchoolEnv "curitiba" "Escola A"
    (mkTrace "v1" "v2" "v3" [some "idA"]) dfOk rfl

/-! ### Claim C3 -/

/-- The identifiers named as source and trigger by the detail requests of an
event trace, in request order. -/
def detailSources (tr : List Ev) : List (Option String) :=
  tr.filterMap (fun e => match e with
    | Ev.detailReq s _ => some s
    | _ => none)

theorem detailSources_mkTrace (v1 v2 v3 : String) (uids : List (Option String)) :
    detailSources (mkTrace v1 v2 v3 uids) = uids := by
  induction uids with
  | nil => rfl
  | cons i t ih =>
    simpa [detailSources, mkTrace] using ih

/-- Claim C3, counterexample.  The claim states that no detail request is
issued for rows whose identifier is null.  On a summary table whose second
row has a cell without an id attribute the ids column holds None, and the
detail request loop, which iterates over the distinct column values with None
among them, issues one request whose source is the null identifier. -/
theorem c3_counterexample :
    (extract_school_data envC3fix "curitiba" "Escola A").map
        (fun r => detailSources r.1) =
      Except.ok [some "idA", none] := rfl

/-- Claim C3, amended.  Exactly one detail request is issued per distinct
identifier of the summary table — the null identifier included when some row
carries one: on any successful extraction the detail-request sources are
pairwise distinct and are exactly the values occurring in the extracted ids
column of the second grid table. -/
theorem c3_theorem (env : SchoolEnv) (city school : String) (tr : List Ev)
    (df : List MergedRow) (tbl : HtmlTable)
    (h : extract_school_data env city school = Except.ok (tr, df))
    (hgt : env.gridTables.get? 1 = some tbl) :
    (detailSources tr).Nodup ∧
    (∀ x, x ∈ detailSources tr ↔ x ∈ extractIds tbl.dataRows) := by
  obtain ⟨v1, v2, v3, table, htable, htr⟩ := extract_school_data_ok_shape h
  have hT : table = tbl := Option.some.inj (htable.symm.trans hgt)
  subst hT
  rw [htr, detailSources_mkTrace]
  exact ⟨nodup_pdUnique _, fun x => mem_pdUnique _ x⟩

/-- Claim C3, witness: on the fixture environment the single detail-request
source list is exactly the distinct ids of the fixture table. -/
theorem c3_witness :
    (detailSources (mkTrace "v1" "v2" "v3" [some "idA"])).Nodup ∧
    (∀ x, x ∈ detailSources (mkTrace "v1" "v2" "v3" [some "idA"]) ↔
      x ∈ extractIds tableA.dataRows) :=
  c3_theorem okSchoolEnv "curitiba" "Escola A"
    (mkTrace "v1" "v2" "v3" [some "idA"]) dfOk tableA rfl rfl

/-! ### Claim C6 -/

theorem flatMap_extractIdsCell_length : ∀ cs : List Cell,
    (cs.flatMap extractIdsCell).length = (cs.filter (fun c => !c.hasDiv)).length := by
  intro cs
  induction cs with
  | nil => rfl
  | cons c t ih =>
    cases hc : c.hasDiv <;>
      simp [extractIdsCell, hc, ih, List.flatMap_cons, List.filter_cons]

/-- A three-row fixture table (cells without nested divs) whose middle row
has no id attribute. -/
def rows3ex : List DataRow :=
  [⟨[⟨false, some "idA"⟩], big7ex⟩, ⟨[⟨false, none⟩], big7ex⟩,
   ⟨[⟨false, some "idC"⟩], big7ex⟩]

/-- A three-row table whose middle row's only cell contains a nested div (and
no id attribute). -/
def rowsDivC6 : List DataRow :=
  [⟨[⟨false, some "idA"⟩], big7ex⟩, ⟨[⟨true, none⟩], big7ex⟩,
   ⟨[⟨false, some "idC"⟩], big7ex⟩]

/-- Claim C6, counterexample.  The claim states that every cell without an id
is recorded as a null identifier so that the ids list stays aligned with the
parsed rows.  A cell whose markup contains a nested div contributes nothing at
all: on a three-row table whose middle cell holds a div and no id, the
extractor yields two entries, not three, and the middle row is not recorded as
null. -/
theorem c6_counterexample :
    extractIds rowsDivC6 = [some "idA", some "idC"] ∧
    rowsDivC6.length = 3 ∧ (extractIds rowsDivC6).length ≠ rowsDivC6.length := by
  refine ⟨by decide, by decide, by decide⟩

/-- Claim C6, amended.  An identifier is captured for a cell only if the cell
markup contains no nested div and carries an id attribute; a div-free cell
without an id is recorded as null; a cell containing a div contributes no
entry at all.  Row alignment therefore holds exactly when every row has one
div-free cell: under that hypothesis the ids list has one entry per row, and
on the three-row fixture whose div-free middle cell lacks an id the list is
id, null, id. -/
theorem c6_theorem :
    (∀ rows : List DataRow,
      (∀ r ∈ rows, (r.cells.filter (fun c => !c.hasDiv)).length = 1) →
      (extractIds rows).length = rows.length) ∧
    (∀ (rows : List DataRow) (s : String), some s ∈ extractIds rows →
      ∃ r, r ∈ rows ∧ ∃ c, c ∈ r.cells ∧ c.hasDiv = false ∧ c.idAttr = some s) ∧
    extractIds rows3ex = [some "idA", none, some "idC"] ∧
    rows3ex.length = 3 := by
  refine ⟨?_, ?_, by decide, by decide⟩
  · intro rows h
    induction rows with
    | nil => rfl
    | cons r rs ih =>
      show (r.cells.flatMap extractIdsCell ++ extractIds rs).length = rs.length + 1
      rw [List.length_append, flatMap_extractIdsCell_length,
        h r (List.mem_cons_self r rs),
        ih fun r' hr' => h r' (List.mem_cons_of_mem r hr')]
      exact Nat.add_comm 1 rs.length
  · intro rows s hmem
    induction rows with
    | nil => exact absurd hmem (List.not_mem_nil _)
    | cons r rs ih =>
      rcases List.mem_append.mp hmem with hin | hin
      · obtain ⟨c, hc, hcontrib⟩ := List.mem_flatMap.mp hin
        cases hdiv : c.hasDiv with
        | true =>
          have hnil : extractIdsCell c = [] := by simp [extractIdsCell, hdiv]
          rw [hnil] at hcontrib
          exact absurd hcontrib (List.not_mem_nil _)
        | false =>
          have hval : extractIdsCell c = [c.idAttr] := by simp [extractIdsCell, hdiv]
          rw [hval] at hcontrib
          exact ⟨r, List.mem_cons_self r rs, c, hc, hdiv,
            (List.mem_singleton.mp hcontrib).symm⟩
      · obtain ⟨r', hr', hrest⟩ := ih hin
        exact ⟨r', List.mem_cons_of_mem r hr', hrest⟩

/-- Claim C6, witness: row alignment on the three-row fixture whose rows all
have exactly one div-free cell. -/
theorem c6_witness : (extractIds rows3ex).length = rows3ex.length :=
  c6_theorem.1 rows3ex (by decide)

/-! ### Claim C7 -/

/-- Total number of detail rows matched across a list of summary rows. -/
def sumMatches (details : List DetailRow) : List BigRow → Nat
  | [] => 0
  | b :: bs => (matchesOf details b).length + sumMatches details bs

theorem mergeLeft_length_of_matched : ∀ (bigs : List BigRow) (details : List DetailRow),
    (∀ b ∈ bigs, matchesOf details b ≠ []) →
    (mergeLeft bigs details).length = sumMatches details bigs := by
  intro bigs
  induction bigs with
  | nil => intro details _; rfl
  | cons b bs ih =>
    intro details h
    have hb : ¬(matchesOf details b).isEmpty = true := by
      rw [List.isEmpty_iff]; exact h b (List.mem_cons_self b bs)
    show ((if (matchesOf details b).isEmpty then [unmatchedRow b]
      else (matchesOf details b).map (matchedRow b)) ++ mergeLeft bs details).length =
      (matchesOf details b).length + sumMatches details bs
    rw [if_neg hb, List.length_append, List.length_map,
      ih details (fun b' hb' => h b' (List.mem_cons_of_mem b hb'))]

theorem length_filter_partition (p : DetailRow → Bool) (l : List DetailRow) :
    l.length = (l.filter p).length + (l.filter (fun d => !p d)).length := by
  induction l with
  | nil => rfl
  | cons d t ih =>
    cases hd : p d <;>
      simp [List.filter_cons, hd, ih, Nat.add_assoc, Nat.add_comm, Nat.add_left_comm]

theorem matchesOf_filter_ne (details : List DetailRow) (k k2 : Option String)
    (hne : k ≠ k2) :
    (details.filter (fun d => !decide (d.ids = k2))).filter
        (fun d => decide (d.ids = k)) =
      details.filter (fun d => decide (d.ids = k)) := by
  induction details with
  | nil => rfl
  | cons d t ih =>
    by_cases hd : d.ids = k
    · have h2 : ¬(d.ids = k2) := by rw [hd]; exact hne
      simp [List.filter_cons, hd, h2, hne, ih]
    · by_cases h2 : d.ids = k2 <;>
        simp [List.filter_cons, hd, h2, Ne.symm hne, ih]

theorem sumMatches_congr : ∀ (bs : List BigRow) (d1 d2 : List DetailRow),
    (∀ b ∈ bs, matchesOf d1 b = matchesOf d2 b) →
    sumMatches d1 bs = sumMatches d2 bs := by
  intro bs
  induction bs with
  | nil => intro _ _ _; rfl
  | cons b t ih =>
    intro d1 d2 h
    show (matchesOf d1 b).length + sumMatches d1 t =
      (matchesOf d2 b).length + sumMatches d2 t
    rw [h b (List.mem_cons_self b t),
      ih d1 d2 (fun b' h' => h b' (List.mem_cons_of_mem b h'))]

/-- Counting argument for the left join: with pairwise distinct summary
identifiers and every detail identifier occurring among them, each detail row
is matched by exactly one summary row. -/
theorem sumMatches_eq_length : ∀ (bigs : List BigRow) (details : List DetailRow),
    (bigs.map (fun b => b.ids)).Nodup →
    (∀ d ∈ details, d.ids ∈ bigs.map (fun b => b.ids)) →
    sumMatches details bigs = details.length := by
  intro bigs
  induction bigs with
  | nil =>
    intro details _ hsub
    cases details with
    | nil => rfl
    | cons d t => exact absurd (hsub d (List.mem_cons_self d t)) (by simp)
  | cons b bs ih =>
    intro details hnd hsub
    rw [List.map_cons, List.nodup_cons] at hnd
    have hrest : ∀ b' ∈ bs,
        matchesOf (details.filter (fun d => !decide (d.ids = b.ids))) b' =
          matchesOf details b' := by
      intro b' hb'
      have hne : b'.ids ≠ b.ids := by
        intro hEq
        exact hnd.1 (hEq ▸ List.mem_map_of_mem (fun b => b.ids) hb')
      exact matchesOf_filter_ne details b'.ids b.ids hne
    have hsub' : ∀ d ∈ details.filter (fun d => !decide (d.ids = b.ids)),
        d.ids ∈ bs.map (fun b => b.ids) := by
      intro d hd
      have hd' := List.mem_filter.mp hd
      have hne : ¬(d.ids = b.ids) := by
        have := hd'.2
        simp only [Bool.not_eq_eq_eq_not, Bool.not_true, decide_eq_false_iff_not] at this
        exact this
      rcases List.mem_cons.mp (hsub d hd'.1) with hEq | hmem
      · exact absurd hEq hne
      · exact hmem
    show (matchesOf details b).length + sumMatches details bs = details.length
    rw [← sumMatches_congr bs _ details hrest,
      ih (details.filter (fun d => !decide (d.ids = b.ids))) hnd.2 hsub']
    exact (length_filter_partition (fun d => decide (d.ids = b.ids)) details).symm

theorem mergeLeft_unmatched : ∀ (bigs : List BigRow) (details : List DetailRow),
    (∀ b ∈ bigs, matchesOf details b = []) →
    mergeLeft bigs details = bigs.map unmatchedRow := by
  intro bigs
  induction bigs with
  | nil => intro _ _; rfl
  | cons b bs ih =>
    intro details h
    have hb : (matchesOf details b).isEmpty = true := by
      rw [List.isEmpty_iff]; exact h b (List.mem_cons_self b bs)
    show (if (matchesOf details b).isEmpty then [unmatchedRow b]
      else (matchesOf details b).map (matchedRow b)) ++ mergeLeft bs details =
      unmatchedRow b :: bs.map unmatchedRow
    rw [if_pos hb, ih details (fun b' hb' => h b' (List.mem_cons_of_mem b hb'))]
    rfl

/-- Claim C7: joining a summary set of size M (pairwise distinct identifiers)
with K detail records, when every detail identifier occurs in the summary set
and every summary row matches at least one detail record, yields exactly K
rows; when no summary row matches any detail record it yields exactly M rows
whose detail columns are all zero after the fill. -/
theorem c7_theorem (bigs : List BigRow) (details : List DetailRow)
    (hnd : (bigs.map (fun b => b.ids)).Nodup) :
    ((∀ d ∈ details, d.ids ∈ bigs.map (fun b => b.ids)) →
      (∀ b ∈ bigs, matchesOf details b ≠ []) →
      (fillna0 (mergeLeft bigs details)).length = details.length) ∧
    ((∀ b ∈ bigs, matchesOf details b = []) →
      (fillna0 (mergeLeft bigs details)).length = bigs.length ∧
      ∀ m ∈ fillna0 (mergeLeft bigs details),
        m.nome = Cellv.num 0 ∧ m.dados = Cellv.num 0 ∧
        m.municipio = Cellv.num 0 ∧ m.escola = Cellv.num 0) := by
  constructor
  · intro hsub hmatch
    show (List.map fillRow (mergeLeft bigs details)).length = details.length
    rw [List.length_map, mergeLeft_length_of_matched bigs details hmatch,
      sumMatches_eq_length bigs details hnd hsub]
  · intro hnone
    rw [mergeLeft_unmatched bigs details hnone]
    constructor
    · show (List.map fillRow (bigs.map unmatchedRow)).length = bigs.length
      rw [List.length_map, List.length_map]
    · intro m hm
      obtain ⟨m', hm', hfill⟩ := List.mem_map.mp hm
      obtain ⟨b, _, hb⟩ := List.mem_map.mp hm'
      rw [← hfill, ← hb]
      exact ⟨rfl, rfl, rfl, rfl⟩

def bigsW : List BigRow := [⟨big7ex, some "a"⟩, ⟨big7ex, some "b"⟩]

def detailsW : List DetailRow :=
  [⟨some "a", Cellv.str "x", Cellv.num 1, Cellv.na, Cellv.na⟩,
   ⟨some "a", Cellv.str "y", Cellv.num 2, Cellv.na, Cellv.na⟩,
   ⟨some "b", Cellv.str "z", Cellv.num 3, Cellv.na, Cellv.na⟩]

/-- Claim C7, witness: two summary rows joined to three fully-matching detail
records yield three rows. -/
theorem c7_witness : (fillna0 (mergeLeft bigsW detailsW)).length = 3 :=
  (c7_theorem bigsW detailsW (by decide)).1 (by decide) (by decide)

/-! ### Claims C8 and C10 -/

theorem mem_mergeLeft : ∀ (bigs : List BigRow) (details : List DetailRow)
    (m : MergedRow), m ∈ mergeLeft bigs details →
    (∃ b, b ∈ bigs ∧ m = unmatchedRow b) ∨
    (∃ b d, b ∈ bigs ∧ d ∈ details ∧ m = matchedRow b d) := by
  intro bigs
  induction bigs with
  | nil => intro details m hm; exact absurd hm (List.not_mem_nil m)
  | cons b bs ih =>
    intro details m hm
    rcases List.mem_append.mp hm with hin | hin
    · by_cases hb : (matchesOf details b).isEmpty = true
      · rw [if_pos hb] at hin
        left
        exact ⟨b, List.mem_cons_self b bs, List.mem_singleton.mp hin⟩
      · rw [if_neg hb] at hin
        obtain ⟨d, hd, hmd⟩ := List.mem_map.mp hin
        right
        exact ⟨b, d, List.mem_cons_self b bs,
          (List.mem_filter.mp hd).1, hmd.symm⟩
    · rcases ih details m hin with ⟨b', hb', hm'⟩ | ⟨b', d', hb', hd', hm'⟩
      · exact Or.inl ⟨b', List.mem_cons_of_mem b hb', hm'⟩
      · exact Or.inr ⟨b', d', List.mem_cons_of_mem b hb', hd', hm'⟩

/-- Claim C8, counterexample.  The claim states that the municipality and
school name columns are attached to every joined row.  The code attaches them
to the detail frame before the merge, so a summary row that matches no detail
record receives a missing value there, turned into the number 0 by the fill:
on a two-row fixture whose second identifier has a zero-row detail table, the
municipality column of the returned merged table reads name, 0. -/
theorem c8_counterexample :
    (extract_school_data envC8fix "curitiba" "Escola A").map
        (fun r => r.2.map (fun m => m.municipio)) =
      Except.ok [Cellv.str "curitiba", Cellv.num 0] := rfl

/-- Claim C8, amended.  The municipality and school names are attached to
every joined row that matched at least one detail record; a summary row with
no match instead gets the number 0 in every detail-side column, the
municipality and school name columns included; unmatched fields default to
zero after the fill. -/
theorem c8_theorem (bigs : List BigRow) (details : List DetailRow)
    (city school : String)
    (hdet : ∀ d ∈ details,
      d.municipio = Cellv.str city ∧ d.escola = Cellv.str school) :
    ∀ m ∈ fillna0 (mergeLeft bigs details),
      (m.municipio = Cellv.str city ∧ m.escola = Cellv.str school) ∨
      (m.municipio = Cellv.num 0 ∧ m.escola = Cellv.num 0 ∧
        m.nome = Cellv.num 0 ∧ m.dados = Cellv.num 0) := by
  intro m hm
  obtain ⟨m', hm', hfill⟩ := List.mem_map.mp hm
  rcases mem_mergeLeft bigs details m' hm' with ⟨b, _, hb⟩ | ⟨b, d, _, hd, hbd⟩
  · right
    rw [← hfill, hb]
    exact ⟨rfl, rfl, rfl, rfl⟩
  · left
    rw [← hfill, hbd]
    have := hdet d hd
    show fillCell d.municipio = Cellv.str city ∧ fillCell d.escola = Cellv.str school
    rw [this.1, this.2]
    exact ⟨rfl, rfl⟩

/-- The single merged row of the one-row matched join fixture. -/
def mergedW : MergedRow :=
  { big7 := big7ex, ids := Cellv.str "a", nome := Cellv.str "x",
    dados := Cellv.num 1, municipio := Cellv.str "curitiba",
    escola := Cellv.str "escola" }

/-- Claim C8, witness: on a matched fixture row the names are attached. -/
theorem c8_witness :
    (mergedW.municipio = Cellv.str "curitiba" ∧
      mergedW.escola = Cellv.str "escola") ∨
    (mergedW.municipio = Cellv.num 0 ∧ mergedW.escola = Cellv.num 0 ∧
      mergedW.nome = Cellv.num 0 ∧ mergedW.dados = Cellv.num 0) :=
  c8_theorem [⟨big7ex, some "a"⟩]
    [⟨some "a", Cellv.str "x", Cellv.num 1, Cellv.str "curitiba",
      Cellv.str "escola"⟩] "curitiba" "escola" (by decide) mergedW (by decide)

theorem unmatched_mem_mergeLeft : ∀ (bigs : List BigRow) (details : List DetailRow)
    (b : BigRow), b ∈ bigs → matchesOf details b = [] →
    unmatchedRow b ∈ mergeLeft bigs details := by
  intro bigs
  induction bigs with
  | nil => intro details b hb _; exact absurd hb (List.not_mem_nil b)
  | cons b0 bs ih =>
    intro details b hb hnone
    rcases List.mem_cons.mp hb with hEq | hmem
    · subst hEq
      have hE : (matchesOf details b).isEmpty = true := by
        rw [List.isEmpty_iff]; exact hnone
      refine List.mem_append.mpr (Or.inl ?_)
      rw [if_pos hE]
      exact List.mem_singleton.mpr rfl
    · exact List.mem_append.mpr (Or.inr (ih details b hmem hnone))

/-- A merged row with no missing value in any of its columns. -/
def rowFilled (m : MergedRow) : Prop :=
  m.big7.disciplina ≠ Cellv.na ∧ m.big7.turno ≠ Cellv.na ∧
  m.big7.demanda ≠ Cellv.na ∧ m.big7.suprimento ≠ Cellv.na ∧
  m.big7.vagas ≠ Cellv.na ∧ m.big7.excessos ≠ Cellv.na ∧
  m.big7.detalhes ≠ Cellv.na ∧ m.ids ≠ Cellv.na ∧ m.nome ≠ Cellv.na ∧
  m.dados ≠ Cellv.na ∧ m.municipio ≠ Cellv.na ∧ m.escola ≠ Cellv.na

theorem fillCell_ne_na (c : Cellv) : fillCell c ≠ Cellv.na := by
  cases c <;> simp [fillCell]

/-- Claim C10: the zero fill is applied to every column of the merged table —
after the fill no row has a missing value in any column, and a summary row
with no matching detail record appears as its filled unmatched row, whose
name, personal, municipality and school columns all hold the number 0. -/
theorem c10_theorem (bigs : List BigRow) (details : List DetailRow) :
    (∀ m ∈ fillna0 (mergeLeft bigs details), rowFilled m) ∧
    (∀ b, b ∈ bigs → matchesOf details b = [] →
      fillRow (unmatchedRow b) ∈ fillna0 (mergeLeft bigs details) ∧
      (fillRow (unmatchedRow b)).nome = Cellv.num 0 ∧
      (fillRow (unmatchedRow b)).dados = Cellv.num 0 ∧
      (fillRow (unmatchedRow b)).municipio = Cellv.num 0 ∧
      (fillRow (unmatchedRow b)).escola = Cellv.num 0) := by
  constructor
  · intro m hm
    obtain ⟨m', _, hfill⟩ := List.mem_map.mp hm
    rw [← hfill]
    exact ⟨fillCell_ne_na _, fillCell_ne_na _, fillCell_ne_na _, fillCell_ne_na _,
      fillCell_ne_na _, fillCell_ne_na _, fillCell_ne_na _, fillCell_ne_na _,
      fillCell_ne_na _, fillCell_ne_na _, fillCell_ne_na _, fillCell_ne_na _⟩
  · intro b hb hnone
    exact ⟨List.mem_map_of_mem fillRow
      (unmatched_mem_mergeLeft bigs details b hb hnone), rfl, rfl, rfl, rfl⟩

/-- The first merged row of the two-summary-row join fixture: the detail rows
of the fixture carry missing municipality and school cells, filled to 0. -/
def mergedW10 : MergedRow :=
  { big7 := big7ex, ids := Cellv.str "a", nome := Cellv.str "x",
    dados := Cellv.num 1, municipio := Cellv.num 0, escola := Cellv.num 0 }

/-- Claim C10, witness: a concrete filled row has no missing value. -/
theorem c10_witness : rowFilled mergedW10 :=
  (c10_theorem bigsW detailsW).1 mergedW10 (by decide)

/-! ### Claims C1 and C2 -/

theorem processCity_keyError (env : RunEnv) (dict : List (String × String))
    (dfExcel : List (String × String)) (city : String)
    (h : dict.lookup city = none) :
    processCity env dict dfExcel city = Except.error (PyError.keyError city) := by
  rw [processCity, h]

theorem processCity_skip (env : RunEnv) (dict : List (String × String))
    (dfExcel : List (String × String)) (city code : String)
    (hc : dict.lookup city = some code)
    (hs : (env.city city).selectTag = none) :
    processCity env dict dfExcel city = Except.ok [] := by
  rw [processCity, hc, hs]

/-- An exception raised while processing one city propagates out of
`extract_city_data`: the cities after it are never reached and the frames of
the cities before it are discarded with the raised error. -/
theorem extract_city_data_error (env : RunEnv) (dict : List (String × String))
    (dfExcel : List (String × String)) :
    ∀ (pre : List String) (c : String) (post : List String) (e : PyError),
    (∀ c' ∈ pre, ∃ v, processCity env dict dfExcel c' = Except.ok v) →
    processCity env dict dfExcel c = Except.error e →
    extract_city_data env dict dfExcel (pre ++ c :: post) = Except.error e := by
  intro pre
  induction pre with
  | nil =>
    intro c post e _ hc
    show extract_city_data env dict dfExcel (c :: post) = Except.error e
    rw [extract_city_data, hc]
  | cons a t ih =>
    intro c post e hpre hc
    obtain ⟨v, hv⟩ := hpre a (List.mem_cons_self a t)
    show extract_city_data env dict dfExcel (a :: (t ++ c :: post)) = Except.error e
    rw [extract_city_data, hv,
      ih c post e (fun c' h' => hpre c' (List.mem_cons_of_mem a h')) hc]

theorem main_propagates (excel dict : List (String × String)) (env : RunEnv)
    (e : PyError)
    (h : extract_city_data env dict (extract_cities_schools excel).1
      (extract_cities_schools excel).2 = Except.error e) :
    main excel dict env = Except.error e := by
  rw [main, h]

/-- Claim C1, counterexample.  The claim states a failed school extraction is
scoped to that school, with earlier frames still written.  With one city and
two requested schools where the first school extracts successfully and the
second school's page lacks the view-state input, the whole run returns the
TypeError and no export is produced, although the first school's frame had
been collected. -/
theorem c1_counterexample :
    main excelC1 dictC1 envC1fix = Except.error PyError.typeError ∧
    (extract_school_data okSchoolEnv "curitiba" "Escola A").isOk = true :=
  ⟨rfl, rfl⟩

/-- Claim C1, amended.  No exception is caught at the per-school boundary: an
error raised while extracting one school propagates out of the per-city loop
and out of main, so the run aborts and the frames already collected for
earlier schools and cities are discarded, not written.  The only non-fatal
skip is at city granularity: a city whose school-options response holds no
select element is skipped with continue and contributes no frames. -/
theorem c1_theorem :
    (∀ (env : RunEnv) (dict dfExcel : List (String × String)) (city code : String),
      dict.lookup city = some code → (env.city city).selectTag = none →
      processCity env dict dfExcel city = Except.ok []) ∧
    (∀ (env : RunEnv) (dict dfExcel : List (String × String))
      (pre : List String) (c : String) (post : List String) (e : PyError),
      (∀ c' ∈ pre, ∃ v, processCity env dict dfExcel c' = Except.ok v) →
      processCity env dict dfExcel c = Except.error e →
      extract_city_data env dict dfExcel (pre ++ c :: post) = Except.error e) ∧
    (∀ (excel dict : List (String × String)) (env : RunEnv) (e : PyError),
      extract_city_data env dict (extract_cities_schools excel).1
        (extract_cities_schools excel).2 = Except.error e →
      main excel dict env = Except.error e) :=
  ⟨fun env dict dfExcel city code hc hs =>
      processCity_skip env dict dfExcel city code hc hs,
    fun env dict dfExcel pre c post e hpre hc =>
      extract_city_data_error env dict dfExcel pre c post e hpre hc,
    fun excel dict env e h => main_propagates excel dict env e h⟩

/-- Claim C1, witness: the skip path and the abort path at concrete inputs. -/
theorem c1_witness :
    processCity envSkip dictC1 [] "curitiba" = Except.ok [] ∧
    extract_city_data envC1fix dictC1
        [("escolaa", "curitiba"), ("escolab", "curitiba")] ["curitiba"] =
      Except.error PyError.typeError :=
  ⟨c1_theorem.1 envSkip dictC1 [] "curitiba" "100" rfl rfl,
    c1_theorem.2.1 envC1fix dictC1
      [("escolaa", "curitiba"), ("escolab", "curitiba")] [] "curitiba" []
      PyError.typeError (fun c' h' => absurd h' (List.not_mem_nil c')) rfl⟩

/-- Claim C2, counterexample.  The claim states a municipality missing from
the city code map is skipped and the run continues.  With the spreadsheet
requesting Foz then Curitiba and a map containing only Curitiba, the run
aborts at once with the KeyError for foz and Curitiba is never processed. -/
theorem c2_counterexample :
    main excelC2 dictC1 envC1fix = Except.error (PyError.keyError "foz") := rfl

/-- Claim C2, amended.  A requested municipality whose normalized key has no
entry in the city code map raises an uncaught KeyError: `extract_city_data`
returns that error as soon as the municipality is reached, so the remaining
municipalities and their schools are not processed and the run aborts. -/
theorem c2_theorem (env : RunEnv) (dict dfExcel : List (String × String))
    (pre : List String) (c : String) (post : List String)
    (hpre : ∀ c' ∈ pre, ∃ v, processCity env dict dfExcel c' = Except.ok v)
    (h : dict.lookup c = none) :
    extract_city_data env dict dfExcel (pre ++ c :: post) =
      Except.error (PyError.keyError c) :=
  extract_city_data_error env dict dfExcel pre c post (PyError.keyError c) hpre
    (processCity_keyError env dict dfExcel c h)

/-- Claim C2, witness: the abort at a concrete missing municipality. -/
theorem c2_witness :
    extract_city_data envC1fix dictC1 [] ["foz", "curitiba"] =
      Except.error (PyError.keyError "foz") :=
  c2_theorem envC1fix dictC1 [] [] "foz" ["curitiba"]
    (fun c' h' => absurd h' (List.not_mem_nil c')) rfl

end EscolasParana
